import Mathlib

/-!
Verification of the termgl core (a WebGL cell-grid terminal plus an
immediate-mode UI state machine) against its natural-language
specification.

The JavaScript source is shallowly embedded: each JS method becomes a
Lean function over explicit state records.  `Uint32Array` cell arrays
are modelled as total functions `Nat → Nat` (every cell starts at 0 and
all source accesses are in bounds); JS exceptions become an
`Except (String × UIState)` value whose error carries the state at the
moment of the throw, because JS mutations performed before a throw
survive it.
-/

namespace Termgl

/-! ## Terminal buffers (src/terminal/terminal.js, class Buffer) -/

/-- One of the two cell grids of a terminal.  `chars`, `foreground`,
`background` and `layers` model the four `Uint32Array` fields as total
functions from the flat cell index; the constructor fills them with 0. -/
structure Buffer where
  width : Nat
  height : Nat
  chars : Nat → Nat
  foreground : Nat → Nat
  background : Nat → Nat
  layers : Nat → Nat

/-- The flat index `x + y * width` computed by `Buffer.put` and the
render loop.  Coordinates reaching `put` may be negative, hence `Int`
arguments; the value is only consumed under the bounds check, where
both are nonnegative. -/
def cellIndex (b : Buffer) (x y : Int) : Nat :=
  (x + y * (b.width : Int)).toNat

/-- `Buffer.put` (src/terminal/terminal.js lines 557 to 572).  Characters
are passed as numeric code points (the string branch of the source takes
`charCodeAt(0)` first).  A `bg` of 0 models both the zero sentinel and an
omitted argument: `if (bg)` is false for `0` and for `undefined`. -/
def Buffer.put (b : Buffer) (x y : Int) (char fg bg : Nat) (layer : Nat) : Buffer :=
  if 0 ≤ x ∧ 0 ≤ y ∧ x < (b.width : Int) ∧ y < (b.height : Int) then
    let index := cellIndex b x y
    if b.layers index ≤ layer then
      { b with
        layers := Function.update b.layers index layer
        chars := Function.update b.chars index char
        foreground := Function.update b.foreground index fg
        background :=
          if bg ≠ 0 then Function.update b.background index bg else b.background }
    else b
  else b

/-- `Buffer.clear` (src/terminal/terminal.js lines 606 to 611). -/
def Buffer.clear (b : Buffer) : Buffer :=
  { b with
    chars := fun _ => 0
    foreground := fun _ => 0
    background := fun _ => 0
    layers := fun _ => 0 }

theorem Buffer.put_width (b : Buffer) (x y : Int) (c f g L : Nat) :
    (b.put x y c f g L).width = b.width := by
  unfold Buffer.put
  dsimp only
  repeat' split
  all_goals rfl

theorem Buffer.put_height (b : Buffer) (x y : Int) (c f g L : Nat) :
    (b.put x y c f g L).height = b.height := by
  unfold Buffer.put
  dsimp only
  repeat' split
  all_goals rfl

/-- After an in-bounds write that wins the layer comparison, the cell
holds the written char, foreground and layer, and the written background
exactly when the background argument is not the zero sentinel. -/
theorem Buffer.put_wins (b : Buffer) (x y : Int) (c f g L : Nat)
    (hin : 0 ≤ x ∧ 0 ≤ y ∧ x < (b.width : Int) ∧ y < (b.height : Int))
    (hL : b.layers (cellIndex b x y) ≤ L) :
    (b.put x y c f g L).chars (cellIndex b x y) = c ∧
    (b.put x y c f g L).foreground (cellIndex b x y) = f ∧
    (b.put x y c f g L).background (cellIndex b x y) =
      (if g ≠ 0 then g else b.background (cellIndex b x y)) ∧
    (b.put x y c f g L).layers (cellIndex b x y) = L := by
  unfold Buffer.put
  dsimp only
  rw [if_pos hin, if_pos hL]
  refine ⟨?_, ?_, ?_, ?_⟩
  · simp [Function.update_same]
  · simp [Function.update_same]
  · by_cases hg : g ≠ 0
    · simp [hg, Function.update_same]
    · simp [hg]
  · simp [Function.update_same]

/-- An in-bounds write that loses the layer comparison leaves the buffer
entirely unchanged. -/
theorem Buffer.put_loses (b : Buffer) (x y : Int) (c f g L : Nat)
    (hL : ¬ b.layers (cellIndex b x y) ≤ L) :
    b.put x y c f g L = b := by
  unfold Buffer.put
  dsimp only
  repeat' split
  all_goals rfl

theorem cellIndex_put (b : Buffer) (x y : Int) (c f g L : Nat) (x2 y2 : Int) :
    cellIndex (b.put x y c f g L) x2 y2 = cellIndex b x2 y2 := by
  unfold cellIndex
  rw [Buffer.put_width]

/-- A concrete empty 2 by 2 buffer used by witnesses. -/
def witBuf : Buffer :=
  ⟨2, 2, fun _ => 0, fun _ => 0, fun _ => 0, fun _ => 0⟩

/-- C1: for an in-bounds cell, a write replaces the stored content (char,
foreground, and, when supplied, background) exactly when its layer is at
least the stored layer; writing layer L1 then L2 with L1 at least the
stored layer and L2 at least L1 leaves the content of the second write,
and a subsequent write with a layer below L1 leaves the cell (indeed the
whole buffer) entirely unchanged. -/
theorem put_layer_discipline (b : Buffer) (x y : Int)
    (hin : 0 ≤ x ∧ 0 ≤ y ∧ x < (b.width : Int) ∧ y < (b.height : Int)) :
    (∀ c f g L, b.layers (cellIndex b x y) ≤ L →
      ((b.put x y c f g L).chars (cellIndex b x y) = c ∧
       (b.put x y c f g L).foreground (cellIndex b x y) = f ∧
       (b.put x y c f g L).background (cellIndex b x y) =
         (if g ≠ 0 then g else b.background (cellIndex b x y)) ∧
       (b.put x y c f g L).layers (cellIndex b x y) = L)) ∧
    (∀ c f g L, ¬ b.layers (cellIndex b x y) ≤ L → b.put x y c f g L = b) ∧
    (∀ c1 f1 g1 L1 c2 f2 g2 L2, b.layers (cellIndex b x y) ≤ L1 → L1 ≤ L2 →
      (((b.put x y c1 f1 g1 L1).put x y c2 f2 g2 L2).chars (cellIndex b x y) = c2 ∧
       ((b.put x y c1 f1 g1 L1).put x y c2 f2 g2 L2).foreground (cellIndex b x y) = f2 ∧
       (g2 ≠ 0 →
         ((b.put x y c1 f1 g1 L1).put x y c2 f2 g2 L2).background (cellIndex b x y) = g2))) ∧
    (∀ c1 f1 g1 L1 c3 f3 g3 L3, b.layers (cellIndex b x y) ≤ L1 → L3 < L1 →
      (b.put x y c1 f1 g1 L1).put x y c3 f3 g3 L3 = b.put x y c1 f1 g1 L1) := by
  have hin1 : ∀ c f g L,
      0 ≤ x ∧ 0 ≤ y ∧ x < ((b.put x y c f g L).width : Int) ∧
        y < ((b.put x y c f g L).height : Int) := by
    intro c f g L
    rw [Buffer.put_width, Buffer.put_height]
    exact hin
  refine ⟨?_, ?_, ?_, ?_⟩
  · intro c f g L hL
    exact Buffer.put_wins b x y c f g L hin hL
  · intro c f g L hL
    exact Buffer.put_loses b x y c f g L hL
  · intro c1 f1 g1 L1 c2 f2 g2 L2 h1 h12
    have hw1 := Buffer.put_wins b x y c1 f1 g1 L1 hin h1
    have hlay : (b.put x y c1 f1 g1 L1).layers
        (cellIndex (b.put x y c1 f1 g1 L1) x y) ≤ L2 := by
      rw [cellIndex_put]
      rw [hw1.2.2.2]
      exact h12
    have hw2 := Buffer.put_wins (b.put x y c1 f1 g1 L1) x y c2 f2 g2 L2
      (hin1 c1 f1 g1 L1) hlay
    rw [cellIndex_put] at hw2
    refine ⟨hw2.1, hw2.2.1, ?_⟩
    intro hg2
    rw [hw2.2.2.1, if_pos hg2]
  · intro c1 f1 g1 L1 c3 f3 g3 L3 h1 h31
    have hw1 := Buffer.put_wins b x y c1 f1 g1 L1 hin h1
    apply Buffer.put_loses
    rw [cellIndex_put, hw1.2.2.2]
    omega

/-- Witness for C1 at a concrete buffer and write. -/
theorem put_layer_discipline_witness :
    (witBuf.put 1 1 5 6 7 3).chars (cellIndex witBuf 1 1) = 5 ∧
    (witBuf.put 1 1 5 6 7 3).foreground (cellIndex witBuf 1 1) = 6 ∧
    (witBuf.put 1 1 5 6 7 3).background (cellIndex witBuf 1 1) =
      (if (7 : Nat) ≠ 0 then 7 else witBuf.background (cellIndex witBuf 1 1)) ∧
    (witBuf.put 1 1 5 6 7 3).layers (cellIndex witBuf 1 1) = 3 :=
  (put_layer_discipline witBuf 1 1 (by decide)).1 5 6 7 3 (by decide)

/-- C8: for an in-bounds write that wins the layer comparison, a
background argument equal to the zero sentinel (which also models an
omitted argument) leaves the stored background unchanged while char and
foreground are still replaced; any nonzero background value replaces the
stored background. -/
theorem put_background_sentinel (b : Buffer) (x y : Int) (c f L : Nat)
    (hin : 0 ≤ x ∧ 0 ≤ y ∧ x < (b.width : Int) ∧ y < (b.height : Int))
    (hL : b.layers (cellIndex b x y) ≤ L) :
    (b.put x y c f 0 L).background (cellIndex b x y) =
      b.background (cellIndex b x y) ∧
    (b.put x y c f 0 L).chars (cellIndex b x y) = c ∧
    (b.put x y c f 0 L).foreground (cellIndex b x y) = f ∧
    (∀ g, g ≠ 0 →
      (b.put x y c f g L).background (cellIndex b x y) = g) := by
  have h0 := Buffer.put_wins b x y c f 0 L hin hL
  refine ⟨?_, h0.1, h0.2.1, ?_⟩
  · rw [h0.2.2.1]
    simp
  · intro g hg
    have hgw := Buffer.put_wins b x y c f g L hin hL
    rw [hgw.2.2.1, if_pos hg]

/-- Witness for C8 at a concrete buffer and write. -/
theorem put_background_sentinel_witness :
    (witBuf.put 0 1 9 4 0 2).background (cellIndex witBuf 0 1) =
      witBuf.background (cellIndex witBuf 0 1) ∧
    (witBuf.put 0 1 9 4 0 2).chars (cellIndex witBuf 0 1) = 9 ∧
    (witBuf.put 0 1 9 4 0 2).foreground (cellIndex witBuf 0 1) = 4 ∧
    (∀ g, g ≠ 0 →
      (witBuf.put 0 1 9 4 g 2).background (cellIndex witBuf 0 1) = g) :=
  put_background_sentinel witBuf 0 1 9 4 2 (by decide) (by decide)

/-! ## Terminal double buffering and diff (src/terminal/terminal.js,
class Terminal) -/

/-- The per-cell comparison of `Terminal.render` (lines 397 to 403): a
cell is skipped when the (char, foreground, background) triple is equal
between back and front buffers.  The stored layer takes no part in it. -/
def cellUnchanged (front back : Buffer) (i : Nat) : Bool :=
  back.chars i == front.chars i &&
  back.foreground i == front.foreground i &&
  back.background i == front.background i

/-- The diff walk of `Terminal.render` (lines 388 to 450): iterate x over
the width and y over the height, skip unchanged cells, and add 6 vertices
(two triangles) for every changed cell.  Only the final vertexCount is
modelled; the vertex, texture and color payloads are per-cell constants
fed to the GPU. -/
def renderVertexCount (w h : Nat) (front back : Buffer) : Nat :=
  (List.range w).foldl
    (fun acc x =>
      (List.range h).foldl
        (fun acc2 y =>
          if cellUnchanged front back (x + y * w) then acc2 else acc2 + 6)
        acc)
    0

/-- The two buffers and cell dimensions of a `Terminal`; the WebGL
objects are not modelled. -/
structure Terminal where
  width : Nat
  height : Nat
  frontBuffer : Buffer
  backBuffer : Buffer

/-- `Terminal.put` (lines 357 to 359): forward to the back buffer. -/
def Terminal.put (t : Terminal) (x y : Int) (char fg bg layer : Nat) : Terminal :=
  { t with backBuffer := t.backBuffer.put x y char fg bg layer }

/-- `Terminal.render` (lines 380 to 486): build the diff batch, then swap
the buffers and clear the new back buffer.  Returns the new terminal
state paired with the vertexCount handed to gl.drawArrays. -/
def Terminal.render (t : Terminal) : Terminal × Nat :=
  let vertexCount := renderVertexCount t.width t.height t.frontBuffer t.backBuffer
  ({ t with frontBuffer := t.backBuffer, backBuffer := t.frontBuffer.clear },
   vertexCount)

/-- The number of cells visited by the render walk whose (char,
foreground, background) triple differs between the back and front
buffers.  This states the quantity named by the specification. -/
def changedCellCount (w h : Nat) (front back : Buffer) : Nat :=
  ((List.range w).flatMap fun x => (List.range h).map fun y => x + y * w).countP
    (fun i => ! cellUnchanged front back i)

theorem foldl_skip_six {α : Type} (p : α → Bool) (l : List α) (a : Nat) :
    l.foldl (fun acc e => if p e then acc else acc + 6) a
      = a + 6 * l.countP (fun e => ! p e) := by
  induction l generalizing a with
  | nil => simp
  | cons e l ih =>
      by_cases hp : p e
      · simp [hp, ih, List.countP_cons]
      · simp only [List.foldl_cons, hp, if_false, ih, List.countP_cons,
          Bool.not_eq_true]
        simp [hp]
        ring

theorem foldl_add_map {α : Type} (g : α → Nat) (l : List α) (a : Nat) :
    l.foldl (fun acc x => acc + g x) a = a + (l.map g).sum := by
  induction l generalizing a with
  | nil => simp
  | cons e l ih => simp [ih, add_assoc]

theorem countP_flatMap {α β : Type} (p : β → Bool) (f : α → List β) (l : List α) :
    (l.flatMap f).countP p = (l.map fun x => (f x).countP p).sum := by
  induction l with
  | nil => simp
  | cons e l ih => simp [List.countP_append, ih]

theorem sum_map_six {α : Type} (g : α → Nat) (l : List α) :
    (l.map fun x => 6 * g x).sum = 6 * (l.map g).sum := by
  induction l with
  | nil => simp
  | cons e l ih => simp [ih, Nat.mul_add]

theorem renderVertexCount_eq_six_mul (w h : Nat) (front back : Buffer) :
    renderVertexCount w h front back = 6 * changedCellCount w h front back := by
  unfold renderVertexCount changedCellCount
  rw [countP_flatMap]
  simp only [foldl_skip_six]
  rw [foldl_add_map (fun x =>
    6 * (List.range h).countP fun y => ! cellUnchanged front back (x + y * w))]
  simp only [List.countP_map, Function.comp_def]
  rw [sum_map_six]
  simp

/-- Index bound for the diff walk: each visited flat index is below
width times height. -/
theorem walk_index_lt (w h x y : Nat) (hx : x < w) (hy : y < h) :
    x + y * w < w * h := by
  calc x + y * w < w + y * w := by omega
  _ = (y + 1) * w := by ring
  _ ≤ h * w := Nat.mul_le_mul_right w hy
  _ = w * h := Nat.mul_comm h w

/-- C2: the renderer flush emits exactly 6 vertices per cell whose
(char, foreground, background) triple differs between back and front
buffer, emits zero vertices when the triples agree on every cell of the
grid, and never consults the stored layers of either buffer. -/
theorem render_diff_batch (t : Terminal) :
    (t.render).2 =
      6 * changedCellCount t.width t.height t.frontBuffer t.backBuffer ∧
    ((∀ i, i < t.width * t.height →
        cellUnchanged t.frontBuffer t.backBuffer i = true) →
      (t.render).2 = 0) ∧
    (∀ lf lb : Nat → Nat,
      (Terminal.render
        { t with
          frontBuffer := { t.frontBuffer with layers := lf }
          backBuffer := { t.backBuffer with layers := lb } }).2 = (t.render).2) := by
  refine ⟨renderVertexCount_eq_six_mul _ _ _ _, ?_, ?_⟩
  · intro hall
    rw [show (t.render).2
        = 6 * changedCellCount t.width t.height t.frontBuffer t.backBuffer
      from renderVertexCount_eq_six_mul _ _ _ _]
    have hzero :
        changedCellCount t.width t.height t.frontBuffer t.backBuffer = 0 := by
      unfold changedCellCount
      rw [List.countP_eq_zero]
      intro i hi
      simp only [List.mem_flatMap, List.mem_map, List.mem_range] at hi
      obtain ⟨x, hx, y, hy, rfl⟩ := hi
      have := hall (x + y * t.width) (walk_index_lt _ _ _ _ hx hy)
      simp [this]
    rw [hzero]
  · intro lf lb
    rfl

/-- Witness for C2: a 1 by 1 terminal whose buffers agree emits zero
vertices. -/
theorem render_diff_batch_witness :
    (Terminal.render ⟨1, 1, witBuf, witBuf⟩).2 = 0 :=
  (render_diff_batch ⟨1, 1, witBuf, witBuf⟩).2.1 (by decide)

/-! ## UI state (src/ui/screen.js, class UI)

Stacks backed by JS arrays (push and pop at the array end, top at
`arr[arr.length - 1]`) are modelled as Lean lists with the top at the
head, except the id stack, which keeps JS array order (bottom first)
because `join("/")` reads it in that order.  `focus`, `hover` and
`active` are `Option String`; `none` models both `null` and `undefined`
(no observation in the source distinguishes them: both compare unequal
to every string under `===` and both are missed by `indexOf`). -/

/-- A rectangle `{x, y, width, height}` in cell coordinates. -/
structure Rect where
  x : Int
  y : Int
  width : Int
  height : Int
deriving DecidableEq, Repr

/-- The discrete event kinds the UI inspects (MouseEvent or
KeyboardEvent plus their `type` tag, and the key for keyboard events). -/
inductive UIEvent where
  | mousemove
  | mousedown
  | mouseup
  | keydown (key : String)
  | keyup (key : String)
  | wheel
deriving DecidableEq, Repr

/-- The mutable fields of the `UI` class that the modelled operations
touch.  `warned` counts for the `console.warn` the post-pass check
issues; `passCount` and `flushCount` are instrumentation counting
completed loop iterations of `render()` and calls of
`terminal.render()` — they correspond to event counts, not to stored
data.  `currentId` starts as the empty string: the source initializes
it to `null`, but the first `pushId`/`popId` replaces it by a join and
no modelled observation sees the difference. -/
structure UIState where
  termWidth : Int
  termHeight : Int
  boundingBoxStack : List Rect
  box : Option Rect
  clipRectStack : List Rect
  clip : Option Rect
  idStack : List (Option String)
  currentId : String
  isModal : Bool
  event : Option UIEvent
  focusableControlIds : List String
  focus : Option String
  hover : Option String
  active : Option String
  mouseX : Int
  mouseY : Int
  invalidated : Bool
  warned : Bool
  passCount : Nat
  flushCount : Nat

/-- The state of a freshly constructed `UI` over a default 80 by 25
terminal. -/
def initUI : UIState where
  termWidth := 80
  termHeight := 25
  boundingBoxStack := []
  box := none
  clipRectStack := []
  clip := none
  idStack := []
  currentId := ""
  isModal := false
  event := none
  focusableControlIds := []
  focus := none
  hover := none
  active := none
  mouseX := -1
  mouseY := -1
  invalidated := false
  warned := false
  passCount := 0
  flushCount := 0

/-- `UI.pushBoundingBox` (lines 361 to 371): compose the new origin with
the current box and make the new box the top of the stack. -/
def UIState.pushBoundingBox (s : UIState) (x y w h : Int) : UIState :=
  let box : Rect :=
    match s.box with
    | some b => { x := x + b.x, y := y + b.y, width := w, height := h }
    | none => { x := x, y := y, width := w, height := h }
  { s with boundingBoxStack := box :: s.boundingBoxStack, box := some box }

/-- `UI.popBoundingBox` (lines 376 to 383): pop and restore the previous
top, or throw on an empty stack.  The error carries the state at the
throw. -/
def UIState.popBoundingBox (s : UIState) : Except (String × UIState) UIState :=
  if s.boundingBoxStack.length > 0 then
    let rest := s.boundingBoxStack.tail
    .ok { s with boundingBoxStack := rest, box := rest.head? }
  else
    .error ("Cannot pop the root bounding box!", s)

/-- `UI.pushClipRect` (lines 394 to 404). -/
def UIState.pushClipRect (s : UIState) (x y w h : Int) : UIState :=
  let rect : Rect :=
    match s.box with
    | some b => { x := x + b.x, y := y + b.y, width := w, height := h }
    | none => { x := x, y := y, width := w, height := h }
  { s with clipRectStack := rect :: s.clipRectStack, clip := some rect }

/-- `UI.popClipRect` (lines 409 to 412): `Array.prototype.pop` on an
empty array returns `undefined` and leaves the array empty, so there is
no underflow check here — the function is total. -/
def UIState.popClipRect (s : UIState) : UIState :=
  let rest := s.clipRectStack.tail
  { s with clipRectStack := rest, clip := rest.head? }

/-- `Array.prototype.join("/")` over the id stack, with `null` and
`undefined` entries contributing empty segments. -/
def joinIds : List (Option String) → String
  | [] => ""
  | [i] => i.getD ""
  | i :: j :: rest => i.getD "" ++ "/" ++ joinIds (j :: rest)

/-- `UI.pushId` (lines 304 to 307). -/
def UIState.pushId (s : UIState) (id : Option String) : UIState :=
  let st := s.idStack ++ [id]
  { s with idStack := st, currentId := joinIds st }

/-- `UI.popId` (lines 312 to 315). -/
def UIState.popId (s : UIState) : UIState :=
  let st := s.idStack.dropLast
  { s with idStack := st, currentId := joinIds st }

/-- `UI.getId` (lines 320 to 322). -/
def UIState.getId (s : UIState) : String :=
  s.currentId

/-- `UI.addFocusableControl` (lines 274 to 276): `Array.prototype.push`
appends, so the list is in registration order. -/
def UIState.addFocusableControl (s : UIState) (id : String) : UIState :=
  { s with focusableControlIds := s.focusableControlIds ++ [id] }

/-- `Array.prototype.indexOf` for a possibly null target: the index of
the first strictly equal element, or -1. -/
def jsIndexOfAux (target : String) : List String → Int
  | [] => -1
  | a :: rest =>
      if a = target then 0
      else
        let r := jsIndexOfAux target rest
        if r = -1 then -1 else r + 1

def jsIndexOf (l : List String) (x : Option String) : Int :=
  match x with
  | none => -1
  | some target => jsIndexOfAux target l

/-- JS array subscript `arr[i]`: `undefined` for a negative or
out-of-range index. -/
def jsGetElem (l : List String) (i : Int) : Option String :=
  if i < 0 then none else l.get? i.toNat

/-- `UI.focusNextControl` (lines 281 to 286). -/
def UIState.focusNextControl (s : UIState) : UIState :=
  let index := jsIndexOf s.focusableControlIds s.focus
  let last := (s.focusableControlIds.length : Int) - 1
  let newIndex := if index = last then 0 else index + 1
  { s with focus := jsGetElem s.focusableControlIds newIndex }

/-- `UI.focusPreviousControl` (lines 291 to 296): the JS conditional
`(index ? index : end)` tests truthiness, so 0 selects `end` while -1
(not found) is kept. -/
def UIState.focusPreviousControl (s : UIState) : UIState :=
  let index := jsIndexOf s.focusableControlIds s.focus
  let len := (s.focusableControlIds.length : Int)
  let newIndex := (if index ≠ 0 then index else len) - 1
  { s with focus := jsGetElem s.focusableControlIds newIndex }

/-- `UI.invalidate` (lines 665 to 667). -/
def UIState.invalidate (s : UIState) : UIState :=
  { s with invalidated := true }

/-! ## C3: pop underflow behaviour -/

/-- C3 counterexample: `popClipRect` on an empty clip stack does not
fail loudly — it silently does nothing.  On the fresh UI state (empty
clip stack, no current clip) it returns the state unchanged, while the
claim demands a fatal descriptive error for both pop operations. -/
theorem popClipRect_empty_underflow_silent : initUI.popClipRect = initUI := rfl

/-- C3 amended: `popBoundingBox` on an empty stack fails loudly with a
fatal descriptive error, but `popClipRect` on an empty stack silently
leaves the stack empty and the current clip cleared; on a non-empty
stack each restores the previous top as the current box or clip. -/
theorem pop_underflow_behaviour (s : UIState) :
    (s.boundingBoxStack = [] →
      s.popBoundingBox = .error ("Cannot pop the root bounding box!", s)) ∧
    (∀ r rest, s.boundingBoxStack = r :: rest →
      s.popBoundingBox = .ok { s with boundingBoxStack := rest, box := rest.head? }) ∧
    (s.clipRectStack = [] →
      s.popClipRect = { s with clipRectStack := [], clip := none }) ∧
    (∀ r rest, s.clipRectStack = r :: rest →
      s.popClipRect = { s with clipRectStack := rest, clip := rest.head? }) := by
  refine ⟨?_, ?_, ?_, ?_⟩
  · intro h
    simp [UIState.popBoundingBox, h]
  · intro r rest h
    simp [UIState.popBoundingBox, h]
  · intro h
    simp [UIState.popClipRect, h]
  · intro r rest h
    simp [UIState.popClipRect, h]

/-- A concrete rectangle for witnesses. -/
def witRect : Rect := ⟨0, 0, 4, 4⟩

/-- A UI state holding exactly one bounding box and one clip rect. -/
def witStacked : UIState :=
  { initUI with boundingBoxStack := [witRect], clipRectStack := [witRect] }

/-- Witness for C3 amended: underflow and one-element pops at concrete
states. -/
theorem pop_underflow_behaviour_witness :
    initUI.popBoundingBox = .error ("Cannot pop the root bounding box!", initUI) ∧
    witStacked.popBoundingBox =
      .ok { witStacked with boundingBoxStack := [], box := ([] : List Rect).head? } ∧
    witStacked.popClipRect =
      { witStacked with clipRectStack := [], clip := ([] : List Rect).head? } :=
  ⟨(pop_underflow_behaviour initUI).1 rfl,
   (pop_underflow_behaviour witStacked).2.1 witRect [] rfl,
   (pop_underflow_behaviour witStacked).2.2.2 witRect [] rfl⟩

/-! ## C6 and C10: focus cycling -/

theorem jsIndexOfAux_not_mem (t : String) (l : List String) (h : t ∉ l) :
    jsIndexOfAux t l = -1 := by
  induction l with
  | nil => rfl
  | cons a rest ih =>
      have hat : ¬ a = t := fun he => h (he ▸ List.mem_cons_self a rest)
      have hrest : t ∉ rest := fun hm => h (List.mem_cons_of_mem a hm)
      unfold jsIndexOfAux
      rw [if_neg hat, ih hrest]
      rfl

/-- C6: with focusable ids registered in order [a, b, c], advancing from
b focuses c, advancing again focuses a (wrap at the end), and reversing
from a focuses c (wrap at the start). -/
theorem focus_cycle_order (a b c : String) (hab : a ≠ b) (hac : a ≠ c)
    (hbc : b ≠ c) (s : UIState) (hl : s.focusableControlIds = [a, b, c]) :
    (s.focus = some b →
      ((s.focusNextControl).focus = some c ∧
       ((s.focusNextControl).focusNextControl).focus = some a)) ∧
    (s.focus = some a → (s.focusPreviousControl).focus = some c) := by
  constructor
  · intro hfb
    constructor
    · simp [UIState.focusNextControl, jsIndexOf, jsIndexOfAux, jsGetElem,
        hl, hfb, hab, hbc]
    · simp [UIState.focusNextControl, jsIndexOf, jsIndexOfAux, jsGetElem,
        hl, hfb, hab, hbc, hac]
  · intro hfa
    simp [UIState.focusPreviousControl, jsIndexOf, jsIndexOfAux, jsGetElem,
      hl, hfa, hab, hac]

/-- A UI state with three registered focusable ids and focus on the
middle one. -/
def witFocusB : UIState :=
  { initUI with focusableControlIds := ["a", "b", "c"], focus := some "b" }

/-- A UI state with three registered focusable ids and focus on the
first one. -/
def witFocusA : UIState :=
  { initUI with focusableControlIds := ["a", "b", "c"], focus := some "a" }

/-- Witness for C6 at concrete ids and states. -/
theorem focus_cycle_order_witness :
    ((witFocusB.focusNextControl).focus = some "c" ∧
     ((witFocusB.focusNextControl).focusNextControl).focus = some "a") ∧
    (witFocusA.focusPreviousControl).focus = some "c" :=
  ⟨(focus_cycle_order "a" "b" "c" (by decide) (by decide) (by decide)
      witFocusB rfl).1 rfl,
   (focus_cycle_order "a" "b" "c" (by decide) (by decide) (by decide)
      witFocusA rfl).2 rfl⟩

/-- C10: when the current focus does not occur in the non-empty
registered list (for instance focus is null), advancing selects the
first registered id, but reversing selects no control at all
(`undefined`, modelled as `none`): the wrap behaviour is asymmetric. -/
theorem focus_missing_asymmetry (s : UIState)
    (hne : s.focusableControlIds ≠ [])
    (hmiss : ∀ t, s.focus = some t → t ∉ s.focusableControlIds) :
    (s.focusNextControl).focus = s.focusableControlIds.head? ∧
    (s.focusPreviousControl).focus = none := by
  have hidx : jsIndexOf s.focusableControlIds s.focus = -1 := by
    cases hf : s.focus with
    | none => rfl
    | some t => exact jsIndexOfAux_not_mem t _ (hmiss t hf)
  obtain ⟨a, rest, hl⟩ : ∃ a rest, s.focusableControlIds = a :: rest := by
    cases hcase : s.focusableControlIds with
    | nil => exact absurd hcase hne
    | cons a rest => exact ⟨a, rest, rfl⟩
  constructor
  · unfold UIState.focusNextControl
    dsimp only
    rw [hidx, hl]
    have hne2 : ¬ ((-1 : Int) = ((a :: rest).length : Int) - 1) := by
      simp only [List.length_cons]
      push_cast
      omega
    rw [if_neg hne2]
    rfl
  · unfold UIState.focusPreviousControl
    dsimp only
    rw [hidx]
    norm_num [jsGetElem]

/-- A UI state with two registered focusable ids and no focus. -/
def witNoFocus : UIState :=
  { initUI with focusableControlIds := ["p", "q"], focus := none }

/-- Witness for C10 at a concrete state. -/
theorem focus_missing_asymmetry_witness :
    (witNoFocus.focusNextControl).focus = ["p", "q"].head? ∧
    (witNoFocus.focusPreviousControl).focus = none :=
  focus_missing_asymmetry witNoFocus (by simp [witNoFocus])
    (by intro t ht; cases ht)

/-! ## Geometry tests (src/ui/utils.js) and pointer queries -/

/-- `isPointInside` (utils): inclusive on both ends of both axes. -/
def isPointInside (x y x0 y0 x1 y1 : Int) : Bool :=
  x ≥ x0 && y ≥ y0 && x ≤ x1 && y ≤ y1

/-- `isPointInRect` (utils): half-open on the far edges. -/
def isPointInRect (x y : Int) (r : Rect) : Bool :=
  x ≥ r.x && y ≥ r.y && x < r.x + r.width && y < r.y + r.height

/-- `UI.isMouseOver` (lines 653 to 659) at explicit rectangle arguments.
The source reads `this.box` unconditionally; during a render pass the
root box is always present, so the `none` branch is unreachable there. -/
def UIState.isMouseOver (s : UIState) (x y w h : Int) : Bool :=
  match s.box with
  | some b =>
      let x0 := b.x + x
      let y0 := b.y + y
      isPointInside s.mouseX s.mouseY x0 y0 (x0 + w - 1) (y0 + h - 1)
  | none => false

/-- `UI.isCellVisible` (lines 593 to 602). -/
def UIState.isCellVisible (s : UIState) (x y : Int) : Bool :=
  match s.clip with
  | some c => isPointInRect x y c
  | none => true

/-! ## The Control primitive (src/ui/components/control.js)

The interactive body (lines 35 to 99) runs four sequential event blocks
after hover resolution; each block reads the state left by the previous
one.  Inside `Control` the event field is never mutated, so the local
JS variable `event` and `ui.event` always agree. -/

/-- Hover resolution (lines 45 to 54): claim hover when the pointer is
over the control rectangle and the pointer cell is visible, else clear
hover only when this control holds it. -/
def controlHover (u : UIState) (qid : String) (w h : Int) : UIState :=
  if u.isMouseOver 0 0 w h && u.isCellVisible u.mouseX u.mouseY then
    { u with hover := some qid }
  else if u.hover = some qid then
    { u with hover := none }
  else u

/-- First event block (lines 57 to 64): press while hovered claims
active and focus. -/
def controlPress (u : UIState) (qid : String) (e : UIEvent) : UIState :=
  if u.hover = some qid ∧ e = .mousedown then
    { u with active := some qid, focus := some qid }
  else u

/-- Second event block (lines 66 to 77): release while active, or Enter
key-up while active, clears active. -/
def controlRelease (u : UIState) (qid : String) (e : UIEvent) : UIState :=
  if (u.active = some qid ∧ e = .mouseup) ∨
      (u.active = some qid ∧ e = .keyup "Enter") then
    { u with active := none }
  else u

/-- Third event block (lines 79 to 87): Enter key-down while focused
claims active (keyboard activation). -/
def controlKeyDown (u : UIState) (qid : String) (e : UIEvent) : UIState :=
  if u.focus = some qid ∧ e = .keydown "Enter" then
    { u with active := some qid }
  else u

/-- Fourth event block (lines 89 to 97): Enter key-up while active
re-asserts active. -/
def controlKeyUp (u : UIState) (qid : String) (e : UIEvent) : UIState :=
  if u.active = some qid ∧ e = .keyup "Enter" then
    { u with active := some qid }
  else u

/-- The interactive body of `Control` (lines 35 to 99): register the
qualified id as focusable, resolve hover, then run the event blocks when
an event is present. -/
def controlInteract (u : UIState) (qid : String) (w h : Int) : UIState :=
  let u := u.addFocusableControl qid
  let u := controlHover u qid w h
  match u.event with
  | none => u
  | some e => controlKeyUp (controlKeyDown (controlRelease (controlPress u qid e) qid e) qid e) qid e

/-- `Control` (src/ui/components/control.js lines 14 to 105).  The id
and a bounding box are pushed before the missing-id check, so the throw
happens with both stacks already grown.  The modelled controls render no
children, so the `callback()` contributes nothing. -/
def Control (u : UIState) (id : Option String) (x y w h : Int)
    (disabled : Bool) : Except (String × UIState) UIState := do
  let u := u.pushId id
  let u := u.pushBoundingBox x y w h
  if id = none then
    throw ("Control must have an id!", u)
  else
    let qid := u.getId
    let u := if !disabled && !u.isModal then controlInteract u qid w h else u
    let u ← u.popBoundingBox
    return u.popId

/-- C9: calling the Control primitive with a null or undefined id throws
a fatal error, but only after the id and a bounding box were pushed: at
the moment of the throw both the id stack and the bounding-box stack
hold exactly one more entry than before the call, so the failure does
not leave the UI state unchanged. -/
theorem control_missing_id_throws_after_push (u : UIState) (x y w h : Int)
    (disabled : Bool) :
    Control u none x y w h disabled =
      .error ("Control must have an id!", (u.pushId none).pushBoundingBox x y w h) ∧
    ((u.pushId none).pushBoundingBox x y w h).idStack.length
      = u.idStack.length + 1 ∧
    ((u.pushId none).pushBoundingBox x y w h).boundingBoxStack.length
      = u.boundingBoxStack.length + 1 := by
  refine ⟨rfl, ?_, ?_⟩
  · simp [UIState.pushId, UIState.pushBoundingBox]
  · simp [UIState.pushId, UIState.pushBoundingBox]

/-! ## Screens and the bounded render loop (src/ui/screen.js)

A screen render hook is modelled as a list of calls into the UI
primitives the claims exercise: Control invocations, `invalidate`, and
box or clip pushes and pops.  The after-render callback queue is not
modelled: no modelled action registers a callback, so the queue stays
empty through every pass. -/

/-- The arguments of one `Control` invocation made by a screen. -/
structure ControlSpec where
  id : String
  x : Int
  y : Int
  width : Int
  height : Int
  disabled : Bool
deriving DecidableEq, Repr

/-- One call a screen render hook makes into the UI. -/
inductive ScreenAction where
  | control (c : ControlSpec)
  | invalidate
  | pushBox (x y w h : Int)
  | popBox
  | pushClip (x y w h : Int)
  | popClip
deriving DecidableEq, Repr

/-- A screen: the two flags of the `Screen` base class and the calls its
render hook makes. -/
structure ScreenModel where
  isModal : Bool
  isOpaque : Bool
  actions : List ScreenAction
deriving DecidableEq, Repr

def runAction (s : UIState) : ScreenAction → Except (String × UIState) UIState
  | .control c => Control s (some c.id) c.x c.y c.width c.height c.disabled
  | .invalidate => .ok s.invalidate
  | .pushBox x y w h => .ok (s.pushBoundingBox x y w h)
  | .popBox => s.popBoundingBox
  | .pushClip x y w h => .ok (s.pushClipRect x y w h)
  | .popClip => .ok s.popClipRect

def runActions (s : UIState) : List ScreenAction → Except (String × UIState) UIState
  | [] => .ok s
  | a :: rest => do
      let s2 ← runAction s a
      runActions s2 rest

/-- The downward screen walk of `UI.render` (lines 695 to 713): render
from the most recently pushed screen down, stop below an opaque screen,
and raise the pass-wide modal flag after a modal screen so the screens
below it render with it set.  The list argument is the screen stack
already reversed (top first). -/
def renderScreensTopDown (s : UIState) :
    List ScreenModel → Except (String × UIState) UIState
  | [] => .ok s
  | scr :: rest => do
      let s2 ← runActions s scr.actions
      if scr.isOpaque then
        .ok s2
      else
        let s3 := if scr.isModal then { s2 with isModal := true } else s2
        renderScreensTopDown s3 rest

/-- The start of a loop iteration (lines 679 to 690): reset the
invalidation flag, push a root bounding box sized to the terminal, and
reset the focusable list and the pass-wide modal flag. -/
def passPrelude (s : UIState) : UIState :=
  let s1 := { s with invalidated := false }
  let s2 := s1.pushBoundingBox 0 0 s1.termWidth s1.termHeight
  { s2 with focusableControlIds := [], isModal := false }

/-- One iteration of the render loop body (lines 678 to 728): the
prelude, the top-down screen walk, the root box pop, and the post-pass
check that flags a structural-misuse warning when bounding boxes remain
on the stack.  Only the bounding-box stack is inspected by the check.
`passCount` counts completed iterations.  The screen list holds the
stack in push order (index 0 = bottom). -/
def renderPass (screens : List ScreenModel) (s : UIState) :
    Except (String × UIState) UIState := do
  let s4 ← renderScreensTopDown (passPrelude s) screens.reverse
  let s5 ← s4.popBoundingBox
  let s6 := if s5.boundingBoxStack.length > 0 then { s5 with warned := true } else s5
  return { s6 with passCount := s6.passCount + 1 }

/-- Line 730 calls `this.terminal.clearDrawingBuffer()`, but the
`Terminal` class (src/terminal/terminal.js) defines no such method, so
in JavaScript the call throws a TypeError.  The error carries the state
at the throw. -/
def clearDrawingBufferCall (s : UIState) : Except (String × UIState) UIState :=
  .error ("TypeError: this.terminal.clearDrawingBuffer is not a function", s)

/-- `MAX_RENDERS_PER_FRAME` (line 55). -/
def MAX_RENDERS_PER_FRAME : Nat := 10

/-- The bounded render loop (lines 678 to 731), recursing on the number
of iterations left: run a pass, stop when nothing invalidated, otherwise
clear the drawing buffer and iterate. -/
def renderIter (screens : List ScreenModel) :
    Nat → UIState → Except (String × UIState) UIState
  | 0, s => .ok s
  | n + 1, s => do
      let s2 ← renderPass screens s
      if s2.invalidated = false then
        .ok s2
      else do
        let s3 ← clearDrawingBufferCall s2
        renderIter screens n s3

/-- `UI.render` (lines 672 to 737): the bounded loop followed by the
single `terminal.render()` flush, counted by `flushCount`. -/
def UIState.render (s : UIState) (screens : List ScreenModel) :
    Except (String × UIState) UIState := do
  let s2 ← renderIter screens MAX_RENDERS_PER_FRAME s
  return { s2 with flushCount := s2.flushCount + 1 }

/-! ## C5: the self-invalidating render loop -/

/-- A screen whose render hook unconditionally invalidates the UI. -/
def invalidatingScreen : ScreenModel := ⟨false, false, [ScreenAction.invalidate]⟩

/-- C5 diverges from the code: a screen that invalidates every pass
should drive `render()` through exactly 10 passes and one flush, but
after the first invalidated pass `render()` calls
`terminal.clearDrawingBuffer()`, a method the `Terminal` class does not
define, so the loop dies with a TypeError after a single pass and the
frame is never flushed. -/
theorem render_invalidate_typeerror :
    ∃ s2, initUI.render [invalidatingScreen] =
      .error ("TypeError: this.terminal.clearDrawingBuffer is not a function", s2) ∧
      s2.passCount = 1 ∧ s2.flushCount = 0 :=
  ⟨_, rfl, rfl, rfl⟩

/-! ## C4: the post-pass imbalance check -/

/-- A screen that pushes one clip rect and never pops it. -/
def clipLeakScreen : ScreenModel := ⟨false, false, [ScreenAction.pushClip 0 0 3 3]⟩

/-- C4 counterexample: a screen leaking one clip rect finishes the pass
with a one-deep clip stack, yet no warning is reported — the post-pass
check never looks at the clip-rect stack — while the pass completes and
the frame is flushed. -/
theorem render_clip_imbalance_unreported :
    ∃ s2, initUI.render [clipLeakScreen] = .ok s2 ∧
      s2.clipRectStack.length = 1 ∧ s2.warned = false ∧ s2.flushCount = 1 :=
  ⟨_, rfl, rfl, rfl, rfl⟩

theorem pushBoundingBox_fields (s : UIState) (x y w h : Int) :
    (s.pushBoundingBox x y w h).boundingBoxStack.length
      = s.boundingBoxStack.length + 1 ∧
    (s.pushBoundingBox x y w h).clipRectStack = s.clipRectStack ∧
    (s.pushBoundingBox x y w h).invalidated = s.invalidated ∧
    (s.pushBoundingBox x y w h).warned = s.warned ∧
    (s.pushBoundingBox x y w h).passCount = s.passCount ∧
    (s.pushBoundingBox x y w h).flushCount = s.flushCount := by
  unfold UIState.pushBoundingBox
  cases s.box <;> simp

theorem pushClipRect_fields (s : UIState) (x y w h : Int) :
    (s.pushClipRect x y w h).clipRectStack.length
      = s.clipRectStack.length + 1 ∧
    (s.pushClipRect x y w h).boundingBoxStack = s.boundingBoxStack ∧
    (s.pushClipRect x y w h).invalidated = s.invalidated ∧
    (s.pushClipRect x y w h).warned = s.warned ∧
    (s.pushClipRect x y w h).passCount = s.passCount ∧
    (s.pushClipRect x y w h).flushCount = s.flushCount := by
  unfold UIState.pushClipRect
  cases s.box <;> simp

theorem runActions_pushBox_replicate (x y w h : Int) (k : Nat) :
    ∀ u : UIState, ∃ v,
      runActions u (List.replicate k (ScreenAction.pushBox x y w h)) = .ok v ∧
      v.boundingBoxStack.length = u.boundingBoxStack.length + k ∧
      v.clipRectStack = u.clipRectStack ∧
      v.invalidated = u.invalidated ∧
      v.warned = u.warned ∧
      v.passCount = u.passCount ∧
      v.flushCount = u.flushCount := by
  induction k with
  | zero => exact fun u => ⟨u, rfl, by simp, rfl, rfl, rfl, rfl, rfl⟩
  | succ n ih =>
      intro u
      obtain ⟨v, hrun, hlen, hclip, hinv, hw, hp, hf⟩ :=
        ih (u.pushBoundingBox x y w h)
      have hfields := pushBoundingBox_fields u x y w h
      refine ⟨v, ?_, ?_, ?_, ?_, ?_, ?_, ?_⟩
      · rw [List.replicate_succ]
        exact hrun
      · rw [hlen, hfields.1]
        omega
      · rw [hclip, hfields.2.1]
      · rw [hinv, hfields.2.2.1]
      · rw [hw, hfields.2.2.2.1]
      · rw [hp, hfields.2.2.2.2.1]
      · rw [hf, hfields.2.2.2.2.2]

theorem runActions_pushClip_replicate (x y w h : Int) (k : Nat) :
    ∀ u : UIState, ∃ v,
      runActions u (List.replicate k (ScreenAction.pushClip x y w h)) = .ok v ∧
      v.clipRectStack.length = u.clipRectStack.length + k ∧
      v.boundingBoxStack = u.boundingBoxStack ∧
      v.invalidated = u.invalidated ∧
      v.warned = u.warned ∧
      v.passCount = u.passCount ∧
      v.flushCount = u.flushCount := by
  induction k with
  | zero => exact fun u => ⟨u, rfl, by simp, rfl, rfl, rfl, rfl, rfl⟩
  | succ n ih =>
      intro u
      obtain ⟨v, hrun, hlen, hbb, hinv, hw, hp, hf⟩ :=
        ih (u.pushClipRect x y w h)
      have hfields := pushClipRect_fields u x y w h
      refine ⟨v, ?_, ?_, ?_, ?_, ?_, ?_, ?_⟩
      · rw [List.replicate_succ]
        exact hrun
      · rw [hlen, hfields.1]
        omega
      · rw [hbb, hfields.2.1]
      · rw [hinv, hfields.2.2.1]
      · rw [hw, hfields.2.2.2.1]
      · rw [hp, hfields.2.2.2.2.1]
      · rw [hf, hfields.2.2.2.2.2]

theorem exceptBindOk {e a b : Type} (x : a) (f : a → Except e b) :
    (Except.ok x >>= f) = f x := rfl

theorem passPrelude_fields (s : UIState) :
    (passPrelude s).boundingBoxStack.length = s.boundingBoxStack.length + 1 ∧
    (passPrelude s).boundingBoxStack.tail = s.boundingBoxStack ∧
    (passPrelude s).clipRectStack = s.clipRectStack ∧
    (passPrelude s).invalidated = false ∧
    (passPrelude s).warned = s.warned ∧
    (passPrelude s).passCount = s.passCount ∧
    (passPrelude s).flushCount = s.flushCount := by
  unfold passPrelude UIState.pushBoundingBox
  cases s.box <;> simp

/-- A render pass over a single non-opaque non-modal screen reduces to
the pop and post-pass check applied to the state its actions produced. -/
theorem renderPass_single_plain (scr : ScreenModel) (s v : UIState)
    (hop : scr.isOpaque = false) (hmod : scr.isModal = false)
    (hrun : runActions (passPrelude s) scr.actions = .ok v) :
    renderPass [scr] s =
      (do
        let s5 ← v.popBoundingBox
        let s6 := if s5.boundingBoxStack.length > 0 then { s5 with warned := true } else s5
        return { s6 with passCount := s6.passCount + 1 }) := by
  unfold renderPass
  have h1 : renderScreensTopDown (passPrelude s) [scr].reverse = .ok v := by
    show renderScreensTopDown (passPrelude s) [scr] = .ok v
    unfold renderScreensTopDown
    rw [hrun]
    simp [hop, hmod]
    rfl
  rw [h1]
  rfl

/-- When a pass leaves the invalidated flag clear, the loop stops after
that pass. -/
theorem renderIter_stop (screens : List ScreenModel) (k : Nat) (hk : k ≠ 0)
    (s v : UIState) (hpass : renderPass screens s = .ok v)
    (hinv : v.invalidated = false) :
    renderIter screens k s = .ok v := by
  cases k with
  | zero => exact absurd rfl hk
  | succ n =>
      unfold renderIter
      rw [hpass]
      simp only [exceptBindOk]
      rw [if_pos hinv]

/-- C4 amended: at the end of a render pass, an imbalance of the
bounding-box stack is reported by the post-pass check while an imbalance
of the clip-rect stack goes entirely unreported; in both cases the pass
completes and the frame is flushed exactly once. -/
theorem render_imbalance_check (s : UIState) (n : Nat) (hn : 0 < n)
    (hbb : s.boundingBoxStack = []) (hw : s.warned = false) :
    (∃ s2, s.render [⟨false, false, List.replicate n (ScreenAction.pushBox 0 0 1 1)⟩]
        = .ok s2 ∧
      s2.warned = true ∧ s2.passCount = s.passCount + 1 ∧
      s2.flushCount = s.flushCount + 1) ∧
    (∃ s2, s.render [⟨false, false, List.replicate n (ScreenAction.pushClip 0 0 1 1)⟩]
        = .ok s2 ∧
      s2.warned = false ∧ s2.clipRectStack.length = s.clipRectStack.length + n ∧
      s2.passCount = s.passCount + 1 ∧ s2.flushCount = s.flushCount + 1) := by
  have hpp := passPrelude_fields s
  have hs0 : s.boundingBoxStack.length = 0 := by rw [hbb]; rfl
  constructor
  · obtain ⟨v, hrun, hlen, hclip, hinv, hwv, hp, hf⟩ :=
      runActions_pushBox_replicate 0 0 1 1 n (passPrelude s)
    have hpp1 := hpp.1
    have hvlen : v.boundingBoxStack.length = n + 1 := by omega
    have hvinv : v.invalidated = false := hinv.trans hpp.2.2.2.1
    have hvp : v.passCount = s.passCount := hp.trans hpp.2.2.2.2.2.1
    have hvf : v.flushCount = s.flushCount := hf.trans hpp.2.2.2.2.2.2
    have hgt : v.boundingBoxStack.length > 0 := by omega
    have htail : v.boundingBoxStack.tail.length > 0 := by
      rw [List.length_tail]
      omega
    have hpass : renderPass
        [⟨false, false, List.replicate n (ScreenAction.pushBox 0 0 1 1)⟩] s
        = .ok { v with
            boundingBoxStack := v.boundingBoxStack.tail,
            box := v.boundingBoxStack.tail.head?,
            warned := true,
            passCount := v.passCount + 1 } := by
      rw [renderPass_single_plain _ s v rfl rfl hrun]
      unfold UIState.popBoundingBox
      rw [if_pos hgt]
      simp only [exceptBindOk]
      rw [if_pos htail]
      rfl
    have hpassinv : ({ v with
        boundingBoxStack := v.boundingBoxStack.tail,
        box := v.boundingBoxStack.tail.head?,
        warned := true,
        passCount := v.passCount + 1 } : UIState).invalidated = false := hvinv
    have hiter := renderIter_stop _ 10 (by decide) s _ hpass hpassinv
    refine ⟨{ v with
        boundingBoxStack := v.boundingBoxStack.tail,
        box := v.boundingBoxStack.tail.head?,
        warned := true,
        passCount := v.passCount + 1,
        flushCount := v.flushCount + 1 }, ?_, rfl, ?_, ?_⟩
    · unfold UIState.render
      simp only [MAX_RENDERS_PER_FRAME]
      rw [hiter]
      rfl
    · show v.passCount + 1 = s.passCount + 1
      omega
    · show v.flushCount + 1 = s.flushCount + 1
      omega
  · obtain ⟨v, hrun, hlen, hbbv, hinv, hwv, hp, hf⟩ :=
      runActions_pushClip_replicate 0 0 1 1 n (passPrelude s)
    have hpp1 := hpp.1
    have hvlen : v.boundingBoxStack.length = 1 := by
      rw [hbbv]
      omega
    have hvtail : v.boundingBoxStack.tail = [] := by
      rw [hbbv, hpp.2.1, hbb]
    have hvinv : v.invalidated = false := hinv.trans hpp.2.2.2.1
    have hvw : v.warned = false := hwv.trans (hpp.2.2.2.2.1.trans hw)
    have hvclip : v.clipRectStack.length = s.clipRectStack.length + n := by
      rw [hlen, hpp.2.2.1]
    have hvp : v.passCount = s.passCount := hp.trans hpp.2.2.2.2.2.1
    have hvf : v.flushCount = s.flushCount := hf.trans hpp.2.2.2.2.2.2
    have hgt : v.boundingBoxStack.length > 0 := by omega
    have htail : ¬ v.boundingBoxStack.tail.length > 0 := by
      rw [hvtail]
      simp
    have hpass : renderPass
        [⟨false, false, List.replicate n (ScreenAction.pushClip 0 0 1 1)⟩] s
        = .ok { v with
            boundingBoxStack := v.boundingBoxStack.tail,
            box := v.boundingBoxStack.tail.head?,
            passCount := v.passCount + 1 } := by
      rw [renderPass_single_plain _ s v rfl rfl hrun]
      unfold UIState.popBoundingBox
      rw [if_pos hgt]
      simp only [exceptBindOk]
      rw [if_neg htail]
      rfl
    have hpassinv : ({ v with
        boundingBoxStack := v.boundingBoxStack.tail,
        box := v.boundingBoxStack.tail.head?,
        passCount := v.passCount + 1 } : UIState).invalidated = false := hvinv
    have hiter := renderIter_stop _ 10 (by decide) s _ hpass hpassinv
    refine ⟨{ v with
        boundingBoxStack := v.boundingBoxStack.tail,
        box := v.boundingBoxStack.tail.head?,
        passCount := v.passCount + 1,
        flushCount := v.flushCount + 1 }, ?_, ?_, ?_, ?_, ?_⟩
    · unfold UIState.render
      simp only [MAX_RENDERS_PER_FRAME]
      rw [hiter]
      rfl
    · exact hvw
    · exact hvclip
    · show v.passCount + 1 = s.passCount + 1
      omega
    · show v.flushCount + 1 = s.flushCount + 1
      omega

/-! ### Shape lemmas for the Control primitive

Each step of the interactive body only rewrites the interaction fields
(focusable list, hover, active, focus); the lemmas below make that
explicit and bound the values the fields can take. -/

theorem controlHover_shape (u : UIState) (qid : String) (w h : Int) :
    ∃ ho, controlHover u qid w h = { u with hover := ho } ∧
      (ho = u.hover ∨ ho = none ∨ ho = some qid) := by
  unfold controlHover
  split
  · exact ⟨some qid, rfl, Or.inr (Or.inr rfl)⟩
  · split
    · exact ⟨none, rfl, Or.inr (Or.inl rfl)⟩
    · exact ⟨u.hover, rfl, Or.inl rfl⟩

theorem controlPress_shape (u : UIState) (qid : String) (e : UIEvent) :
    ∃ ac fc, controlPress u qid e = { u with active := ac, focus := fc } ∧
      (ac = u.active ∨ ac = some qid) ∧ (fc = u.focus ∨ fc = some qid) := by
  unfold controlPress
  split
  · exact ⟨some qid, some qid, rfl, Or.inr rfl, Or.inr rfl⟩
  · exact ⟨u.active, u.focus, rfl, Or.inl rfl, Or.inl rfl⟩

theorem controlRelease_shape (u : UIState) (qid : String) (e : UIEvent) :
    ∃ ac, controlRelease u qid e = { u with active := ac } ∧
      (ac = u.active ∨ ac = none) := by
  unfold controlRelease
  split
  · exact ⟨none, rfl, Or.inr rfl⟩
  · exact ⟨u.active, rfl, Or.inl rfl⟩

theorem controlKeyDown_shape (u : UIState) (qid : String) (e : UIEvent) :
    ∃ ac, controlKeyDown u qid e = { u with active := ac } ∧
      (ac = u.active ∨ ac = some qid) := by
  unfold controlKeyDown
  split
  · exact ⟨some qid, rfl, Or.inr rfl⟩
  · exact ⟨u.active, rfl, Or.inl rfl⟩

theorem controlKeyUp_shape (u : UIState) (qid : String) (e : UIEvent) :
    ∃ ac, controlKeyUp u qid e = { u with active := ac } ∧
      (ac = u.active ∨ ac = some qid) := by
  unfold controlKeyUp
  split
  · exact ⟨some qid, rfl, Or.inr rfl⟩
  · exact ⟨u.active, rfl, Or.inl rfl⟩

/-- The interactive body appends exactly the qualified id to the
focusable list and can only move hover, active and focus between their
previous values, nothing, and the control itself. -/
theorem controlInteract_shape (u : UIState) (qid : String) (w h : Int) :
    ∃ ho ac fc, controlInteract u qid w h =
      { u with
        focusableControlIds := u.focusableControlIds ++ [qid],
        hover := ho, active := ac, focus := fc } ∧
      (ho = u.hover ∨ ho = none ∨ ho = some qid) ∧
      (ac = u.active ∨ ac = none ∨ ac = some qid) ∧
      (fc = u.focus ∨ fc = some qid) := by
  unfold controlInteract UIState.addFocusableControl
  dsimp only
  obtain ⟨ho, hh, hmh⟩ :=
    controlHover_shape { u with focusableControlIds := u.focusableControlIds ++ [qid] } qid w h
  rw [hh]
  dsimp only
  cases hev : u.event with
  | none =>
      exact ⟨ho, u.active, u.focus, rfl, hmh, Or.inl rfl, Or.inl rfl⟩
  | some e =>
      dsimp only
      obtain ⟨a1, f1, hpr, hma1, hmf1⟩ := controlPress_shape
        { u with
          event := some e
          focusableControlIds := u.focusableControlIds ++ [qid]
          hover := ho } qid e
      rw [hpr]
      obtain ⟨a2, hrel, hma2⟩ := controlRelease_shape
        { u with
          event := some e
          focusableControlIds := u.focusableControlIds ++ [qid]
          hover := ho
          active := a1
          focus := f1 } qid e
      rw [hrel]
      obtain ⟨a3, hkd, hma3⟩ := controlKeyDown_shape
        { u with
          event := some e
          focusableControlIds := u.focusableControlIds ++ [qid]
          hover := ho
          active := a2
          focus := f1 } qid e
      rw [hkd]
      obtain ⟨a4, hku, hma4⟩ := controlKeyUp_shape
        { u with
          event := some e
          focusableControlIds := u.focusableControlIds ++ [qid]
          hover := ho
          active := a3
          focus := f1 } qid e
      rw [hku]
      refine ⟨ho, a4, f1, rfl, hmh, ?_, hmf1⟩
      have c4 : a4 = a3 ∨ a4 = some qid := hma4
      have c3 : a3 = a2 ∨ a3 = some qid := hma3
      have c2 : a2 = a1 ∨ a2 = none := hma2
      have c1 : a1 = u.active ∨ a1 = some qid := hma1
      rcases c4 with rfl | rfl
      · rcases c3 with rfl | rfl
        · rcases c2 with rfl | rfl
          · rcases c1 with rfl | rfl
            · exact Or.inl rfl
            · exact Or.inr (Or.inr rfl)
          · exact Or.inr (Or.inl rfl)
        · exact Or.inr (Or.inr rfl)
      · exact Or.inr (Or.inr rfl)

theorem pushBoundingBox_shape (u : UIState) (x y w h : Int) :
    ∃ nb, u.pushBoundingBox x y w h =
      { u with boundingBoxStack := nb :: u.boundingBoxStack, box := some nb } := by
  unfold UIState.pushBoundingBox
  cases u.box
  · exact ⟨_, rfl⟩
  · exact ⟨_, rfl⟩

theorem dropLast_append_single {α : Type} (l : List α) (a : α) :
    (l ++ [a]).dropLast = l := by
  simp

/-- While the pass-wide modal flag is set, a Control invocation is a
complete no-op on the UI state: the pushes are undone by the pops and
the interactive body is skipped, so lower-screen controls acquire
nothing and register nothing. -/
theorem Control_modal_id (u : UIState) (i : String) (x y w h : Int) (d : Bool)
    (hm : u.isModal = true)
    (hbox : u.box = u.boundingBoxStack.head?)
    (hcur : u.currentId = joinIds u.idStack) :
    Control u (some i) x y w h d = .ok u := by
  unfold Control UIState.pushId
  dsimp only
  obtain ⟨nb, hpb⟩ := pushBoundingBox_shape
    { u with
      idStack := u.idStack ++ [some i]
      currentId := joinIds (u.idStack ++ [some i]) } x y w h
  rw [hpb]
  rw [if_neg (by simp : ¬ (some i = none))]
  dsimp only [UIState.getId]
  rw [hm]
  simp only [Bool.not_true, Bool.and_false, Bool.false_eq_true, if_false]
  unfold UIState.popBoundingBox
  dsimp only
  rw [if_pos (by simp : (nb :: u.boundingBoxStack).length > 0)]
  simp only [exceptBindOk]
  unfold UIState.popId
  dsimp only [List.tail_cons]
  rw [dropLast_append_single, ← hcur, ← hbox, ← hm]
  rfl

/-- With the modal flag clear, a Control invocation restores the id and
box stacks, registers exactly its qualified id, and can only move
hover, active and focus between their previous values, nothing, and
itself. -/
theorem Control_nonmodal_shape (u : UIState) (i : String) (x y w h : Int)
    (hm : u.isModal = false)
    (hbox : u.box = u.boundingBoxStack.head?)
    (hcur : u.currentId = joinIds u.idStack) :
    ∃ ho ac fc, Control u (some i) x y w h false =
      .ok { u with
        focusableControlIds :=
          u.focusableControlIds ++ [joinIds (u.idStack ++ [some i])]
        hover := ho
        active := ac
        focus := fc } ∧
      (ho = u.hover ∨ ho = none ∨ ho = some (joinIds (u.idStack ++ [some i]))) ∧
      (ac = u.active ∨ ac = none ∨ ac = some (joinIds (u.idStack ++ [some i]))) ∧
      (fc = u.focus ∨ fc = some (joinIds (u.idStack ++ [some i]))) := by
  unfold Control UIState.pushId
  dsimp only
  obtain ⟨nb, hpb⟩ := pushBoundingBox_shape
    { u with
      idStack := u.idStack ++ [some i]
      currentId := joinIds (u.idStack ++ [some i]) } x y w h
  rw [hpb]
  rw [if_neg (by simp : ¬ (some i = none))]
  dsimp only [UIState.getId]
  rw [hm]
  simp only [Bool.not_false, Bool.and_self, if_true]
  obtain ⟨ho, ac, fc, hI, hmh, hma, hmf⟩ := controlInteract_shape
    { u with
      idStack := u.idStack ++ [some i]
      currentId := joinIds (u.idStack ++ [some i])
      boundingBoxStack := nb :: u.boundingBoxStack
      box := some nb
      isModal := false } (joinIds (u.idStack ++ [some i])) w h
  rw [hI]
  unfold UIState.popBoundingBox
  dsimp only
  rw [if_pos (by simp : (nb :: u.boundingBoxStack).length > 0)]
  simp only [exceptBindOk]
  unfold UIState.popId
  dsimp only [List.tail_cons]
  rw [dropLast_append_single, ← hcur, ← hbox, ← hm]
  exact ⟨ho, ac, fc, rfl, hmh, hma, hmf⟩

/-- Lifting `Control_modal_id` to a whole list of controls: a screen
rendering below a modal screen leaves the UI state untouched. -/
theorem runActions_controls_modal (cs : List ControlSpec) (u : UIState)
    (hm : u.isModal = true)
    (hbox : u.box = u.boundingBoxStack.head?)
    (hcur : u.currentId = joinIds u.idStack) :
    runActions u (cs.map ScreenAction.control) = .ok u := by
  induction cs with
  | nil => rfl
  | cons c rest ih =>
      rw [List.map_cons]
      show (do
        let s2 ← runAction u (ScreenAction.control c)
        runActions s2 (rest.map ScreenAction.control)) = .ok u
      rw [show runAction u (ScreenAction.control c) = .ok u from
        Control_modal_id u c.id c.x c.y c.width c.height c.disabled hm hbox hcur]
      simp only [exceptBindOk]
      exact ih

/-- Lifting `Control_nonmodal_shape` to a list of enabled controls
rendered from a state with an empty id stack: the focusable list gains
exactly the control ids in render order, and hover, active and focus
can only move between their previous values, nothing, and one of the
rendered controls. -/
theorem runActions_controls_shape (cs : List ControlSpec) :
    ∀ u : UIState, u.isModal = false → u.idStack = [] → u.currentId = "" →
      u.box = u.boundingBoxStack.head? →
      (∀ c ∈ cs, c.disabled = false) →
    ∃ ho ac fc, runActions u (cs.map ScreenAction.control) =
      .ok { u with
        focusableControlIds := u.focusableControlIds ++ cs.map (fun c => c.id)
        hover := ho
        active := ac
        focus := fc } ∧
      (ho = u.hover ∨ ho = none ∨ ∃ c ∈ cs, ho = some c.id) ∧
      (ac = u.active ∨ ac = none ∨ ∃ c ∈ cs, ac = some c.id) ∧
      (fc = u.focus ∨ ∃ c ∈ cs, fc = some c.id) := by
  induction cs with
  | nil =>
      intro u hm hid hcur hbox hdis
      refine ⟨u.hover, u.active, u.focus, ?_, Or.inl rfl, Or.inl rfl, Or.inl rfl⟩
      simp [runActions]
  | cons c rest ih =>
      intro u hm hid hcur hbox hdis
      have hcd : c.disabled = false := hdis c (List.mem_cons_self c rest)
      obtain ⟨h1, a1, f1, hC, hmh1, hma1, hmf1⟩ :=
        Control_nonmodal_shape u c.id c.x c.y c.width c.height hm hbox
          (by rw [hcur, hid]; rfl)
      simp only [hid, List.nil_append, joinIds, Option.getD_some]
        at hC hmh1 hma1 hmf1
      obtain ⟨ho2, ac2, fc2, hrun2, hmh2, hma2, hmf2⟩ := ih
        { u with
          idStack := []
          focusableControlIds := u.focusableControlIds ++ [c.id]
          hover := h1
          active := a1
          focus := f1 } hm rfl hcur hbox (fun c2 hc2 => hdis c2 (List.mem_cons_of_mem c hc2))
      refine ⟨ho2, ac2, fc2, ?_, ?_, ?_, ?_⟩
      · rw [List.map_cons, List.map_cons]
        show (do
          let s2 ← runAction u (ScreenAction.control c)
          runActions s2 (rest.map ScreenAction.control)) = _
        have hra : runAction u (ScreenAction.control c) =
            .ok { u with
              idStack := []
              focusableControlIds := u.focusableControlIds ++ [c.id]
              hover := h1
              active := a1
              focus := f1 } := by
          show Control u (some c.id) c.x c.y c.width c.height c.disabled = _
          rw [hcd, hC]
        rw [hra]
        simp only [exceptBindOk]
        rw [hrun2]
        rw [List.append_assoc, List.singleton_append, hid]
      · rcases hmh2 with h | h | ⟨cc, hccmem, h⟩
        · have h2 : ho2 = h1 := h
          rcases hmh1 with h3 | h3 | h3
          · exact Or.inl (h2.trans h3)
          · exact Or.inr (Or.inl (h2.trans h3))
          · exact Or.inr (Or.inr ⟨c, List.mem_cons_self c rest, h2.trans h3⟩)
        · exact Or.inr (Or.inl h)
        · exact Or.inr (Or.inr ⟨cc, List.mem_cons_of_mem c hccmem, h⟩)
      · rcases hma2 with h | h | ⟨cc, hccmem, h⟩
        · have h2 : ac2 = a1 := h
          rcases hma1 with h3 | h3 | h3
          · exact Or.inl (h2.trans h3)
          · exact Or.inr (Or.inl (h2.trans h3))
          · exact Or.inr (Or.inr ⟨c, List.mem_cons_self c rest, h2.trans h3⟩)
        · exact Or.inr (Or.inl h)
        · exact Or.inr (Or.inr ⟨cc, List.mem_cons_of_mem c hccmem, h⟩)
      · rcases hmf2 with h | ⟨cc, hccmem, h⟩
        · have h2 : fc2 = f1 := h
          rcases hmf1 with h3 | h3
          · exact Or.inl (h2.trans h3)
          · exact Or.inr ⟨c, List.mem_cons_self c rest, h2.trans h3⟩
        · exact Or.inr ⟨cc, List.mem_cons_of_mem c hccmem, h⟩

theorem passPrelude_shape (s : UIState) :
    ∃ nb, passPrelude s =
      { s with
        invalidated := false
        boundingBoxStack := nb :: s.boundingBoxStack
        box := some nb
        focusableControlIds := []
        isModal := false } := by
  unfold passPrelude
  dsimp only
  obtain ⟨nb, hpb⟩ := pushBoundingBox_shape { s with invalidated := false }
    0 0 s.termWidth s.termHeight
  rw [hpb]
  exact ⟨nb, rfl⟩

/-- C7: during a render pass over the stack [Base, Dialog] with Dialog
modal and not opaque, the whole pass is indistinguishable from a pass
over [Dialog] alone: Dialog renders first with the modal flag clear so
its controls resolve hover, active and focus normally, the flag is then
raised, and every Control invocation Base makes is a complete no-op
(`Control_modal_id`), so at no point during the pass does a Base
control acquire hover, active or focus or get registered as focusable —
whatever the pointer position.  The final state registers exactly the
Dialog ids and holds no Base id in hover, active, focus or the
focusable list. -/
theorem modal_screen_blocks_lower (s : UIState)
    (baseCs dialogCs : List ControlSpec)
    (hid : s.idStack = []) (hcur : s.currentId = "")
    (hbb : s.boundingBoxStack = [])
    (hdis : ∀ c ∈ dialogCs, c.disabled = false)
    (hdisj : ∀ cb ∈ baseCs, ∀ cd ∈ dialogCs, cb.id ≠ cd.id)
    (hh : ∀ cb ∈ baseCs, s.hover ≠ some cb.id)
    (ha : ∀ cb ∈ baseCs, s.active ≠ some cb.id)
    (hf : ∀ cb ∈ baseCs, s.focus ≠ some cb.id) :
    renderPass [⟨false, false, baseCs.map ScreenAction.control⟩,
      ⟨true, false, dialogCs.map ScreenAction.control⟩] s =
      renderPass [⟨true, false, dialogCs.map ScreenAction.control⟩] s ∧
    ∃ s2, renderPass [⟨false, false, baseCs.map ScreenAction.control⟩,
      ⟨true, false, dialogCs.map ScreenAction.control⟩] s = .ok s2 ∧
      s2.focusableControlIds = dialogCs.map (fun c => c.id) ∧
      (∀ cb ∈ baseCs, cb.id ∉ s2.focusableControlIds ∧
        s2.hover ≠ some cb.id ∧ s2.active ≠ some cb.id ∧
        s2.focus ≠ some cb.id) := by
  obtain ⟨nb, hP⟩ := passPrelude_shape s
  have hm2 : (passPrelude s).isModal = false := by rw [hP]
  have hid2 : (passPrelude s).idStack = [] := by
    rw [hP]
    exact hid
  have hcur2 : (passPrelude s).currentId = "" := by
    rw [hP]
    exact hcur
  have hbox2 : (passPrelude s).box = (passPrelude s).boundingBoxStack.head? := by
    rw [hP]
    rfl
  have hPf : (passPrelude s).focusableControlIds = [] := by rw [hP]
  have hPbb : (passPrelude s).boundingBoxStack = [nb] := by
    rw [hP, hbb]
  obtain ⟨ho, ac, fc, hrunD, hmh, hma, hmf⟩ :=
    runActions_controls_shape dialogCs (passPrelude s) hm2 hid2 hcur2 hbox2 hdis
  have hWbox : ({ passPrelude s with
      focusableControlIds :=
        (passPrelude s).focusableControlIds ++ dialogCs.map (fun c => c.id)
      hover := ho
      active := ac
      focus := fc
      isModal := true } : UIState).box
      = ({ passPrelude s with
      focusableControlIds :=
        (passPrelude s).focusableControlIds ++ dialogCs.map (fun c => c.id)
      hover := ho
      active := ac
      focus := fc
      isModal := true } : UIState).boundingBoxStack.head? := hbox2
  have hWcur : ({ passPrelude s with
      focusableControlIds :=
        (passPrelude s).focusableControlIds ++ dialogCs.map (fun c => c.id)
      hover := ho
      active := ac
      focus := fc
      isModal := true } : UIState).currentId
      = joinIds ({ passPrelude s with
      focusableControlIds :=
        (passPrelude s).focusableControlIds ++ dialogCs.map (fun c => c.id)
      hover := ho
      active := ac
      focus := fc
      isModal := true } : UIState).idStack := by
    show (passPrelude s).currentId = joinIds (passPrelude s).idStack
    rw [hcur2, hid2]
    rfl
  have hrunB := runActions_controls_modal baseCs
    { passPrelude s with
      focusableControlIds :=
        (passPrelude s).focusableControlIds ++ dialogCs.map (fun c => c.id)
      hover := ho
      active := ac
      focus := fc
      isModal := true } rfl hWbox hWcur
  dsimp only at hrunB
  have hTD2 : renderScreensTopDown (passPrelude s)
      [⟨true, false, dialogCs.map ScreenAction.control⟩,
       ⟨false, false, baseCs.map ScreenAction.control⟩] =
      .ok { passPrelude s with
        focusableControlIds :=
          (passPrelude s).focusableControlIds ++ dialogCs.map (fun c => c.id)
        hover := ho
        active := ac
        focus := fc
        isModal := true } := by
    simp only [renderScreensTopDown]
    rw [hrunD]
    simp only [exceptBindOk]
    dsimp only
    simp only [Bool.false_eq_true, if_false, if_true]
    rw [hrunB]
    simp only [exceptBindOk]
  have hTD1 : renderScreensTopDown (passPrelude s)
      [⟨true, false, dialogCs.map ScreenAction.control⟩] =
      .ok { passPrelude s with
        focusableControlIds :=
          (passPrelude s).focusableControlIds ++ dialogCs.map (fun c => c.id)
        hover := ho
        active := ac
        focus := fc
        isModal := true } := by
    simp only [renderScreensTopDown]
    rw [hrunD]
    simp only [exceptBindOk]
    simp only [Bool.false_eq_true, if_false, if_true]
  constructor
  · unfold renderPass
    rw [show ([⟨false, false, baseCs.map ScreenAction.control⟩,
        ⟨true, false, dialogCs.map ScreenAction.control⟩] :
          List ScreenModel).reverse =
        [⟨true, false, dialogCs.map ScreenAction.control⟩,
         ⟨false, false, baseCs.map ScreenAction.control⟩] from by simp]
    rw [show ([⟨true, false, dialogCs.map ScreenAction.control⟩] :
          List ScreenModel).reverse =
        [⟨true, false, dialogCs.map ScreenAction.control⟩] from by simp]
    rw [hTD2, hTD1]
  · have hWbb : ({ passPrelude s with
        focusableControlIds :=
          (passPrelude s).focusableControlIds ++ dialogCs.map (fun c => c.id)
        hover := ho
        active := ac
        focus := fc
        isModal := true } : UIState).boundingBoxStack = [nb] := hPbb
    have hpop : ({ passPrelude s with
        focusableControlIds :=
          (passPrelude s).focusableControlIds ++ dialogCs.map (fun c => c.id)
        hover := ho
        active := ac
        focus := fc
        isModal := true } : UIState).popBoundingBox =
        .ok { passPrelude s with
          focusableControlIds :=
            (passPrelude s).focusableControlIds ++ dialogCs.map (fun c => c.id)
          hover := ho
          active := ac
          focus := fc
          isModal := true
          boundingBoxStack := []
          box := none } := by
      unfold UIState.popBoundingBox
      rw [hWbb]
      simp
    have hpass : renderPass [⟨false, false, baseCs.map ScreenAction.control⟩,
        ⟨true, false, dialogCs.map ScreenAction.control⟩] s =
        .ok { passPrelude s with
          focusableControlIds :=
            (passPrelude s).focusableControlIds ++ dialogCs.map (fun c => c.id)
          hover := ho
          active := ac
          focus := fc
          isModal := true
          boundingBoxStack := []
          box := none
          passCount := (passPrelude s).passCount + 1 } := by
      unfold renderPass
      rw [show ([⟨false, false, baseCs.map ScreenAction.control⟩,
          ⟨true, false, dialogCs.map ScreenAction.control⟩] :
            List ScreenModel).reverse =
          [⟨true, false, dialogCs.map ScreenAction.control⟩,
           ⟨false, false, baseCs.map ScreenAction.control⟩] from by simp]
      rw [hTD2]
      simp only [exceptBindOk]
      rw [hpop]
      simp only [exceptBindOk]
      rfl
    refine ⟨_, hpass, ?_, ?_⟩
    · show (passPrelude s).focusableControlIds ++ dialogCs.map (fun c => c.id)
        = dialogCs.map (fun c => c.id)
      rw [hPf]
      rfl
    · intro cb hcb
      have hfoc : (passPrelude s).focusableControlIds
          ++ dialogCs.map (fun c => c.id) = dialogCs.map (fun c => c.id) := by
        rw [hPf]
        rfl
      refine ⟨?_, ?_, ?_, ?_⟩
      · show cb.id ∉ (passPrelude s).focusableControlIds
          ++ dialogCs.map (fun c => c.id)
        rw [hfoc]
        intro hmem
        obtain ⟨cd, hcd, hEq⟩ := List.mem_map.mp hmem
        exact hdisj cb hcb cd hcd hEq.symm
      · show ho ≠ some cb.id
        rcases hmh with h | h | ⟨cd, hcd, h⟩
        · have h2 : ho = s.hover := h
          rw [h2]
          intro hcon
          exact hh cb hcb hcon
        · rw [h]
          simp
        · rw [h]
          intro hcon
          exact hdisj cb hcb cd hcd (Option.some.inj hcon).symm
      · show ac ≠ some cb.id
        rcases hma with h | h | ⟨cd, hcd, h⟩
        · have h2 : ac = s.active := h
          rw [h2]
          intro hcon
          exact ha cb hcb hcon
        · rw [h]
          simp
        · rw [h]
          intro hcon
          exact hdisj cb hcb cd hcd (Option.some.inj hcon).symm
      · show fc ≠ some cb.id
        rcases hmf with h | ⟨cd, hcd, h⟩
        · have h2 : fc = s.focus := h
          rw [h2]
          intro hcon
          exact hf cb hcb hcon
        · rw [h]
          intro hcon
          exact hdisj cb hcb cd hcd (Option.some.inj hcon).symm

/-- A single Base control covering the screen, used by the C7 witness. -/
def witBase : List ControlSpec := [⟨"bb", 0, 0, 80, 25, false⟩]

/-- A single Dialog control, used by the C7 witness. -/
def witDialog : List ControlSpec := [⟨"dd", 10, 5, 20, 10, false⟩]

/-- Witness for C7 at a concrete fresh UI with one control per screen. -/
theorem modal_screen_blocks_lower_witness :
    renderPass [⟨false, false, witBase.map ScreenAction.control⟩,
      ⟨true, false, witDialog.map ScreenAction.control⟩] initUI =
      renderPass [⟨true, false, witDialog.map ScreenAction.control⟩] initUI ∧
    ∃ s2, renderPass [⟨false, false, witBase.map ScreenAction.control⟩,
      ⟨true, false, witDialog.map ScreenAction.control⟩] initUI = .ok s2 ∧
      s2.focusableControlIds = witDialog.map (fun c => c.id) ∧
      (∀ cb ∈ witBase, cb.id ∉ s2.focusableControlIds ∧
        s2.hover ≠ some cb.id ∧ s2.active ≠ some cb.id ∧
        s2.focus ≠ some cb.id) :=
  modal_screen_blocks_lower initUI witBase witDialog rfl rfl rfl
    (by decide) (by decide) (by decide) (by decide) (by decide)

/-- Witness for C4 amended at one leaked box or clip on the fresh UI. -/
theorem render_imbalance_check_witness :
    (∃ s2, initUI.render
        [⟨false, false, List.replicate 1 (ScreenAction.pushBox 0 0 1 1)⟩] = .ok s2 ∧
      s2.warned = true ∧ s2.passCount = initUI.passCount + 1 ∧
      s2.flushCount = initUI.flushCount + 1) ∧
    (∃ s2, initUI.render
        [⟨false, false, List.replicate 1 (ScreenAction.pushClip 0 0 1 1)⟩] = .ok s2 ∧
      s2.warned = false ∧
      s2.clipRectStack.length = initUI.clipRectStack.length + 1 ∧
      s2.passCount = initUI.passCount + 1 ∧
      s2.flushCount = initUI.flushCount + 1) :=
  render_imbalance_check initUI 1 (by decide) rfl rfl

end Termgl
